import Mathlib

/-!
Shallow embedding of the reconciliation core of `src/index.ts`
(class `GooglePhotosSync`): the paginated fetcher `fetchMediaItems`
and the two-phase reconciler `downloadMedia`.

External effects are made explicit:
* the filesystem is an `FsState` (directory existence flag plus the list of
  file names in the media directory, in directory order);
* per-item failure nondeterminism (a delete throwing, a download request
  failing) is an oracle parameter (`delOk`, `dlOk`);
* the sequence of HTTP page responses seen by the pagination loop is a
  trace parameter (`PageResp`), one entry consumed per loop iteration;
* every HTTP request the program issues is recorded, with the value of its
  `Authorization` header, so that header and cursor claims are statable.
-/

namespace GPhotos

/-- The fields of a remote media item that `downloadMedia` /
`fetchMediaItems` consume (`id`, `filename`, `baseUrl`); metadata is not
used by the reconciliation decisions. -/
structure MediaItem where
  id : String
  filename : String
  baseUrl : String
deriving Repr, DecidableEq

/-- `path.basename`: the final path component, i.e. the text after the
last `/` (the whole string when it has no `/`). -/
def baseName (s : String) : String :=
  String.mk (s.data.foldl (fun acc c => if c = '/' then [] else acc ++ [c]) [])

/-- The `MediaStats` accumulator of `downloadMedia`. -/
structure MediaStats where
  downloaded : Nat
  skipped : Nat
  deleted : Nat
  errors : Nat
deriving Repr, DecidableEq

/-- `const stats = { downloaded: 0, skipped: 0, deleted: 0, errors: 0 }`. -/
def initStats : MediaStats := ⟨0, 0, 0, 0⟩

/-- The state of the media directory: whether it exists, and the names of
the files in it (a directory listing never repeats a name). -/
structure FsState where
  dirExists : Bool
  files : List String
deriving Repr, DecidableEq

/-- An HTTP request to the listing endpoint, as built by `fetchMediaItems`:
`url.searchParams.set("pageSize", "50")`, the optional `pageToken`
parameter, and the `Authorization` header (`none` = no header sent). -/
structure ListReq where
  pageSize : Nat
  pageToken : Option String
  auth : Option String
deriving Repr, DecidableEq

/-- An HTTP request to a download URL, as issued by `downloadMedia`
(`fetch(imageUrl)`), with the `Authorization` header it carries
(`none` = no header sent). -/
structure DlReq where
  url : String
  auth : Option String
deriving Repr, DecidableEq

/-- One iteration's outcome of the listing-endpoint interaction inside the
`do … while` loop of `fetchMediaItems`:
* `ok items next` — request sent, `response.ok`, body parsed;
* `httpError` — request sent, but `!response.ok` or the body is malformed
  (the `throw` inside the inner `try` is caught by the inner `catch`);
* `noToken` — `oauth2Client.getAccessToken()` yields no token, so no HTTP
  request is issued and the inner `catch` runs. -/
inductive PageResp where
  | ok (items : List MediaItem) (next : Option String)
  | httpError
  | noToken
deriving Repr, DecidableEq

/-- Result of `fetchMediaItems`: the accumulated items, the listing
requests issued in order, and whether the loop exited on its own
(`nextPageToken` became null) within the given response trace. -/
structure FetchResult where
  items : List MediaItem
  reqs : List ListReq
  finished : Bool
deriving Repr, DecidableEq

/-- The `do { try { … } catch { log } } while (nextPageToken)` loop of
`fetchMediaItems` (src/index.ts lines 140–183), consuming one `PageResp`
per iteration.  On an error the inner `catch` only logs, so `nextPageToken`
keeps its previous value; the loop exits only when `nextPageToken` is null
after the iteration.  A trace that runs out while the loop still has a
non-null cursor leaves `finished := false`. -/
def fetchLoop (token : String) :
    List PageResp → Option String → List MediaItem → List ListReq → FetchResult
  | [], _, acc, reqs => ⟨acc, reqs, false⟩
  | .noToken :: rest, cursor, acc, reqs =>
    match cursor with
    | none => ⟨acc, reqs, true⟩
    | some t => fetchLoop token rest (some t) acc reqs
  | .httpError :: rest, cursor, acc, reqs =>
    match cursor with
    | none => ⟨acc, reqs ++ [⟨50, none, some token⟩], true⟩
    | some t => fetchLoop token rest (some t) acc (reqs ++ [⟨50, some t, some token⟩])
  | .ok items next :: rest, cursor, acc, reqs =>
    match next with
    | none => ⟨acc ++ items, reqs ++ [⟨50, cursor, some token⟩], true⟩
    | some t =>
      fetchLoop token rest (some t) (acc ++ items) (reqs ++ [⟨50, cursor, some token⟩])

/-- `fetchMediaItems` (src/index.ts lines 133–195): run the pagination loop
from a null cursor with an empty accumulator.  The surrounding `try` always
returns the accumulator (or `[]` from the outer `catch`): it never raises. -/
def fetchMediaItems (token : String) (trace : List PageResp) : FetchResult :=
  fetchLoop token trace none [] []

/-- `if (!fs.existsSync(mediaDir)) fs.mkdirSync(mediaDir, { recursive: true })`
(src/index.ts lines 205–207): a freshly created directory is empty. -/
def ensureDir (s : FsState) : FsState :=
  if s.dirExists then s else ⟨true, []⟩

/-- `mediaItems.map((item) => path.basename(item.filename))`
(src/index.ts lines 213–215); the JS `Set` is used only through `.has`,
which `List.contains` models. -/
def googlePhotosFiles (mediaItems : List MediaItem) : List String :=
  mediaItems.map (fun item => baseName item.filename)

/-- One iteration of the Phase-1 prune loop (src/index.ts lines 218–238):
if `localFile` is not among the remote base names, try to delete it
(`delOk` says whether `fs.unlinkSync` succeeds); on success increment
`deleted`, on a caught exception increment `errors`. -/
def pruneStep (remoteNames : List String) (delOk : String → Bool)
    (st : FsState × MediaStats) (localFile : String) : FsState × MediaStats :=
  if remoteNames.contains localFile then st
  else if delOk localFile then
    (⟨st.1.dirExists, st.1.files.erase localFile⟩,
     { st.2 with deleted := st.2.deleted + 1 })
  else
    (st.1, { st.2 with errors := st.2.errors + 1 })

/-- Phase 1 of `downloadMedia`: iterate the snapshot `localFiles` in order,
pruning orphans from the live state. -/
def prunePhase (remoteNames : List String) (delOk : String → Bool) :
    List String → FsState × MediaStats → FsState × MediaStats
  | [], st => st
  | f :: rest, st => prunePhase remoteNames delOk rest (pruneStep remoteNames delOk st f)

/-- Intermediate state of Phase 2 and final result of `downloadMedia`:
statistics, live filesystem, download requests issued (in order), and
`(name, url)` pairs successfully written (in order). -/
structure SyncResult where
  stats : MediaStats
  fs : FsState
  reqs : List DlReq
  writes : List (String × String)
deriving Repr, DecidableEq

/-- One iteration of the Phase-2 download loop (src/index.ts lines
241–267), for the item at position `idx` of the inventory:
* `fs.existsSync(path.join(mediaDir, imageName))` — checked against the
  live `st.fs.files`; if present, increment `skipped` and continue;
* otherwise `fetch(item.baseUrl + "=d")` is issued (with no headers);
  `dlOk idx` says whether the transfer succeeds; on success
  `fs.writeFileSync` adds the name and `downloaded` is incremented, on a
  caught exception `errors` is incremented. -/
def dlStep (dlOk : Nat → Bool) (idx : Nat) (st : SyncResult) (item : MediaItem) :
    SyncResult :=
  let imageName := baseName item.filename
  if st.fs.files.contains imageName then
    { st with stats := { st.stats with skipped := st.stats.skipped + 1 } }
  else
    let imageUrl := item.baseUrl ++ "=d"
    if dlOk idx then
      { st with
        stats := { st.stats with downloaded := st.stats.downloaded + 1 },
        fs := ⟨st.fs.dirExists, imageName :: st.fs.files⟩,
        reqs := st.reqs ++ [⟨imageUrl, none⟩],
        writes := st.writes ++ [(imageName, imageUrl)] }
    else
      { st with
        stats := { st.stats with errors := st.stats.errors + 1 },
        reqs := st.reqs ++ [⟨imageUrl, none⟩] }

/-- Phase 2 of `downloadMedia`: iterate the inventory in order, numbering
items from `idx`. -/
def dlPhase (dlOk : Nat → Bool) : Nat → List MediaItem → SyncResult → SyncResult
  | _, [], st => st
  | idx, item :: rest, st => dlPhase dlOk (idx + 1) rest (dlStep dlOk idx st item)

/-- `downloadMedia` (src/index.ts lines 197–270): ensure the directory
exists, snapshot `localFiles := fs.readdirSync(mediaDir)`, prune orphans
(Phase 1), then download missing items (Phase 2).  Total: every per-item
failure is caught and counted, never re-raised. -/
def downloadMedia (mediaItems : List MediaItem) (fs0 : FsState)
    (delOk : String → Bool) (dlOk : Nat → Bool) : SyncResult :=
  let fs1 := ensureDir fs0
  let localFiles := fs1.files
  let p := prunePhase (googlePhotosFiles mediaItems) delOk localFiles (fs1, initStats)
  dlPhase dlOk 0 mediaItems ⟨p.2, p.1, [], []⟩

/-- The orphan names of a snapshot: local names whose base name is not that
of any remote item (the candidates of Phase 1's deletion). -/
def orphans (remoteNames : List String) (localFiles : List String) : List String :=
  localFiles.filter (fun f => !(remoteNames.contains f))

/-- Modelled from the spec wording of claim C8 only, for comparison with
`dlStep`: a Phase-2 variant whose skip check consults a fixed snapshot
`snap` (the directory as Phase 1 left it) instead of the live directory,
so downloads made earlier in the same pass are not visible to the check. -/
def dlStepSnap (snap : List String) (dlOk : Nat → Bool) (idx : Nat)
    (st : SyncResult) (item : MediaItem) : SyncResult :=
  let imageName := baseName item.filename
  if snap.contains imageName then
    { st with stats := { st.stats with skipped := st.stats.skipped + 1 } }
  else
    let imageUrl := item.baseUrl ++ "=d"
    if dlOk idx then
      { st with
        stats := { st.stats with downloaded := st.stats.downloaded + 1 },
        fs := ⟨st.fs.dirExists, imageName :: st.fs.files⟩,
        reqs := st.reqs ++ [⟨imageUrl, none⟩],
        writes := st.writes ++ [(imageName, imageUrl)] }
    else
      { st with
        stats := { st.stats with errors := st.stats.errors + 1 },
        reqs := st.reqs ++ [⟨imageUrl, none⟩] }

/-- Phase 2 under the spec wording of claim C8 (fixed-snapshot check). -/
def dlPhaseSnap (snap : List String) (dlOk : Nat → Bool) :
    Nat → List MediaItem → SyncResult → SyncResult
  | _, [], st => st
  | idx, item :: rest, st =>
    dlPhaseSnap snap dlOk (idx + 1) rest (dlStepSnap snap dlOk idx st item)

/-- Pointwise order on the four counters: `a ≤ b` in every field. -/
def statsLe (a b : MediaStats) : Prop :=
  a.downloaded ≤ b.downloaded ∧ a.skipped ≤ b.skipped
    ∧ a.deleted ≤ b.deleted ∧ a.errors ≤ b.errors

/-! ### Helper lemmas: membership bridge -/

lemma mem_of_contains {l : List String} {x : String} (h : l.contains x = true) : x ∈ l := by
  simpa using h

lemma contains_of_mem {l : List String} {x : String} (h : x ∈ l) : l.contains x = true := by
  simpa using h

/-! ### Helper lemmas: Phase 1 (prune) accounting and invariants -/

lemma pruneStep_dirExists (rn : List String) (delOk : String → Bool)
    (st : FsState × MediaStats) (f : String) :
    (pruneStep rn delOk st f).1.dirExists = st.1.dirExists := by
  by_cases h1 : f ∈ rn <;> cases h2 : delOk f <;> simp [pruneStep, h1, h2]

lemma pruneStep_downloaded (rn : List String) (delOk : String → Bool)
    (st : FsState × MediaStats) (f : String) :
    (pruneStep rn delOk st f).2.downloaded = st.2.downloaded := by
  by_cases h1 : f ∈ rn <;> cases h2 : delOk f <;> simp [pruneStep, h1, h2]

lemma pruneStep_skipped (rn : List String) (delOk : String → Bool)
    (st : FsState × MediaStats) (f : String) :
    (pruneStep rn delOk st f).2.skipped = st.2.skipped := by
  by_cases h1 : f ∈ rn <;> cases h2 : delOk f <;> simp [pruneStep, h1, h2]

lemma prunePhase_dirExists (rn : List String) (delOk : String → Bool)
    (loc : List String) (st : FsState × MediaStats) :
    (prunePhase rn delOk loc st).1.dirExists = st.1.dirExists := by
  induction loc generalizing st with
  | nil => rfl
  | cons f rest ih => rw [prunePhase, ih, pruneStep_dirExists]

lemma prunePhase_downloaded (rn : List String) (delOk : String → Bool)
    (loc : List String) (st : FsState × MediaStats) :
    (prunePhase rn delOk loc st).2.downloaded = st.2.downloaded := by
  induction loc generalizing st with
  | nil => rfl
  | cons f rest ih => rw [prunePhase, ih, pruneStep_downloaded]

lemma prunePhase_skipped (rn : List String) (delOk : String → Bool)
    (loc : List String) (st : FsState × MediaStats) :
    (prunePhase rn delOk loc st).2.skipped = st.2.skipped := by
  induction loc generalizing st with
  | nil => rfl
  | cons f rest ih => rw [prunePhase, ih, pruneStep_skipped]

lemma prunePhase_deleted_errors (rn : List String) (delOk : String → Bool)
    (loc : List String) (st : FsState × MediaStats) :
    (prunePhase rn delOk loc st).2.deleted + (prunePhase rn delOk loc st).2.errors
      = st.2.deleted + st.2.errors + (orphans rn loc).length := by
  induction loc generalizing st with
  | nil => simp [prunePhase, orphans]
  | cons f rest ih =>
    rw [prunePhase, ih]
    by_cases h1 : f ∈ rn <;> cases h2 : delOk f <;>
      simp [pruneStep, orphans, h1, h2, List.filter_cons] <;> omega

lemma pruneStep_of_mem {rn : List String} {f : String} (delOk : String → Bool)
    (st : FsState × MediaStats) (h : f ∈ rn) :
    pruneStep rn delOk st f = st := by
  simp [pruneStep, h]

lemma pruneStep_del {rn : List String} {f : String} {delOk : String → Bool}
    (st : FsState × MediaStats) (h1 : f ∉ rn) (h2 : delOk f = true) :
    pruneStep rn delOk st f
      = (⟨st.1.dirExists, st.1.files.erase f⟩,
         { st.2 with deleted := st.2.deleted + 1 }) := by
  simp [pruneStep, h1, h2]

lemma pruneStep_err {rn : List String} {f : String} {delOk : String → Bool}
    (st : FsState × MediaStats) (h1 : f ∉ rn) (h2 : delOk f = false) :
    pruneStep rn delOk st f = (st.1, { st.2 with errors := st.2.errors + 1 }) := by
  simp [pruneStep, h1, h2]

/-- Phase 1 never deletes a file whose name is among the remote base names,
whatever the failure pattern. -/
lemma prunePhase_mem_remote (rn : List String) (delOk : String → Bool)
    (loc : List String) (st : FsState × MediaStats) (x : String)
    (hx : x ∈ rn) (hmem : x ∈ st.1.files) :
    x ∈ (prunePhase rn delOk loc st).1.files := by
  induction loc generalizing st with
  | nil => exact hmem
  | cons f rest ih =>
    rw [prunePhase]
    by_cases h1 : f ∈ rn
    · rw [pruneStep_of_mem delOk st h1]; exact ih st hmem
    · cases h2 : delOk f
      · rw [pruneStep_err st h1 h2]; exact ih _ hmem
      · rw [pruneStep_del st h1 h2]
        refine ih _ ((List.mem_erase_of_ne ?_).mpr hmem)
        rintro rfl; exact h1 hx

/-- Nodup files survive Phase 1. -/
lemma prunePhase_nodup (rn : List String) (delOk : String → Bool)
    (loc : List String) (st : FsState × MediaStats) (hnd : st.1.files.Nodup) :
    (prunePhase rn delOk loc st).1.files.Nodup := by
  induction loc generalizing st with
  | nil => exact hnd
  | cons f rest ih =>
    rw [prunePhase]
    by_cases h1 : f ∈ rn
    · rw [pruneStep_of_mem delOk st h1]; exact ih st hnd
    · cases h2 : delOk f
      · rw [pruneStep_err st h1 h2]; exact ih _ hnd
      · rw [pruneStep_del st h1 h2]; exact ih _ (hnd.erase f)

/-- Characterization of the directory Phase 1 leaves when every delete
succeeds: a name survives iff it was there and is either a remote base name
or was not in the iterated snapshot. -/
lemma prunePhase_mem_allOk (rn : List String) (loc : List String)
    (st : FsState × MediaStats) (hnd : st.1.files.Nodup) (x : String) :
    x ∈ (prunePhase rn (fun _ => true) loc st).1.files
      ↔ x ∈ st.1.files ∧ (x ∈ rn ∨ x ∉ loc) := by
  induction loc generalizing st with
  | nil => simp [prunePhase]
  | cons f rest ih =>
    rw [prunePhase]
    by_cases h1 : f ∈ rn
    · rw [pruneStep_of_mem _ st h1, ih st hnd]
      by_cases hxf : x = f
      · subst hxf; simp [h1]
      · simp [List.mem_cons, hxf]
    · rw [pruneStep_del st h1 rfl, ih _ (hnd.erase f)]
      by_cases hxf : x = f
      · subst hxf
        simp [hnd.not_mem_erase, h1]
      · rw [List.mem_erase_of_ne hxf]
        simp [List.mem_cons, hxf]

/-- Phase 1 is a no-op when every snapshot name is a remote base name. -/
lemma prunePhase_noop (rn : List String) (delOk : String → Bool)
    (loc : List String) (st : FsState × MediaStats)
    (h : ∀ f ∈ loc, f ∈ rn) :
    prunePhase rn delOk loc st = st := by
  induction loc generalizing st with
  | nil => rfl
  | cons f rest ih =>
    rw [prunePhase, pruneStep_of_mem delOk st (h f (by simp))]
    exact ih st (fun g hg => h g (by simp [hg]))

/-! ### Helper lemmas: Phase 2 (download) accounting and invariants -/

lemma dlStep_skip {dlOk : Nat → Bool} {idx : Nat} {st : SyncResult} {item : MediaItem}
    (h : baseName item.filename ∈ st.fs.files) :
    dlStep dlOk idx st item
      = { st with stats := { st.stats with skipped := st.stats.skipped + 1 } } := by
  simp [dlStep, h]

lemma dlStep_dl {dlOk : Nat → Bool} {idx : Nat} {st : SyncResult} {item : MediaItem}
    (h : baseName item.filename ∉ st.fs.files) (h2 : dlOk idx = true) :
    dlStep dlOk idx st item
      = { st with
          stats := { st.stats with downloaded := st.stats.downloaded + 1 },
          fs := ⟨st.fs.dirExists, baseName item.filename :: st.fs.files⟩,
          reqs := st.reqs ++ [⟨item.baseUrl ++ "=d", none⟩],
          writes := st.writes ++ [(baseName item.filename, item.baseUrl ++ "=d")] } := by
  simp [dlStep, h, h2]

lemma dlStep_err {dlOk : Nat → Bool} {idx : Nat} {st : SyncResult} {item : MediaItem}
    (h : baseName item.filename ∉ st.fs.files) (h2 : dlOk idx = false) :
    dlStep dlOk idx st item
      = { st with
          stats := { st.stats with errors := st.stats.errors + 1 },
          reqs := st.reqs ++ [⟨item.baseUrl ++ "=d", none⟩] } := by
  simp [dlStep, h, h2]

lemma dlStep_deleted (dlOk : Nat → Bool) (idx : Nat) (st : SyncResult)
    (item : MediaItem) :
    (dlStep dlOk idx st item).stats.deleted = st.stats.deleted := by
  by_cases h : baseName item.filename ∈ st.fs.files
  · rw [dlStep_skip h]
  · cases h2 : dlOk idx
    · rw [dlStep_err h h2]
    · rw [dlStep_dl h h2]

lemma dlStep_sum (dlOk : Nat → Bool) (idx : Nat) (st : SyncResult) (item : MediaItem) :
    (dlStep dlOk idx st item).stats.downloaded + (dlStep dlOk idx st item).stats.skipped
        + (dlStep dlOk idx st item).stats.errors
      = st.stats.downloaded + st.stats.skipped + st.stats.errors + 1 := by
  by_cases h : baseName item.filename ∈ st.fs.files
  · rw [dlStep_skip h]; simp; omega
  · cases h2 : dlOk idx
    · rw [dlStep_err h h2]; simp; omega
    · rw [dlStep_dl h h2]; simp; omega

lemma dlStep_dirExists (dlOk : Nat → Bool) (idx : Nat) (st : SyncResult)
    (item : MediaItem) :
    (dlStep dlOk idx st item).fs.dirExists = st.fs.dirExists := by
  by_cases h : baseName item.filename ∈ st.fs.files
  · rw [dlStep_skip h]
  · cases h2 : dlOk idx
    · rw [dlStep_err h h2]
    · rw [dlStep_dl h h2]

lemma dlPhase_deleted (dlOk : Nat → Bool) (idx : Nat) (items : List MediaItem)
    (st : SyncResult) :
    (dlPhase dlOk idx items st).stats.deleted = st.stats.deleted := by
  induction items generalizing idx st with
  | nil => rfl
  | cons item rest ih => rw [dlPhase, ih, dlStep_deleted]

lemma dlPhase_sum (dlOk : Nat → Bool) (idx : Nat) (items : List MediaItem)
    (st : SyncResult) :
    (dlPhase dlOk idx items st).stats.downloaded
        + (dlPhase dlOk idx items st).stats.skipped
        + (dlPhase dlOk idx items st).stats.errors
      = st.stats.downloaded + st.stats.skipped + st.stats.errors + items.length := by
  induction items generalizing idx st with
  | nil => simp [dlPhase]
  | cons item rest ih =>
    rw [dlPhase, ih, dlStep_sum]
    simp; omega

lemma dlPhase_dirExists (dlOk : Nat → Bool) (idx : Nat) (items : List MediaItem)
    (st : SyncResult) :
    (dlPhase dlOk idx items st).fs.dirExists = st.fs.dirExists := by
  induction items generalizing idx st with
  | nil => rfl
  | cons item rest ih => rw [dlPhase, ih, dlStep_dirExists]

/-- Phase 2 never removes a file. -/
lemma dlPhase_files_mono (dlOk : Nat → Bool) (idx : Nat) (items : List MediaItem)
    (st : SyncResult) (x : String) (hx : x ∈ st.fs.files) :
    x ∈ (dlPhase dlOk idx items st).fs.files := by
  induction items generalizing idx st with
  | nil => exact hx
  | cons item rest ih =>
    rw [dlPhase]
    apply ih
    by_cases h : baseName item.filename ∈ st.fs.files
    · rw [dlStep_skip h]; exact hx
    · cases h2 : dlOk idx
      · rw [dlStep_err h h2]; exact hx
      · rw [dlStep_dl h h2]; exact List.mem_cons_of_mem _ hx

/-- Phase 2 only ever adds base names of inventory items. -/
lemma dlPhase_files_new (dlOk : Nat → Bool) (idx : Nat) (items : List MediaItem)
    (st : SyncResult) (x : String)
    (hx : x ∈ (dlPhase dlOk idx items st).fs.files) :
    x ∈ st.fs.files ∨ ∃ item ∈ items, x = baseName item.filename := by
  induction items generalizing idx st with
  | nil => exact Or.inl hx
  | cons item rest ih =>
    rw [dlPhase] at hx
    rcases ih _ _ hx with h | ⟨it, hit, rfl⟩
    · by_cases hm : baseName item.filename ∈ st.fs.files
      · rw [dlStep_skip hm] at h; exact Or.inl h
      · cases h2 : dlOk idx
        · rw [dlStep_err hm h2] at h; exact Or.inl h
        · rw [dlStep_dl hm h2] at h
          rcases List.mem_cons.mp h with rfl | h
          · exact Or.inr ⟨item, by simp⟩
          · exact Or.inl h
    · exact Or.inr ⟨it, by simp [hit]⟩

/-- With an all-success download oracle, after Phase 2 every inventory
item's base name is present locally. -/
lemma dlPhase_covers (idx : Nat) (items : List MediaItem) (st : SyncResult) :
    ∀ item ∈ items,
      baseName item.filename ∈ (dlPhase (fun _ => true) idx items st).fs.files := by
  induction items generalizing idx st with
  | nil => intro item h; cases h
  | cons hd rest ih =>
    intro item hmem
    rw [dlPhase]
    rcases List.mem_cons.mp hmem with rfl | hmem
    · apply dlPhase_files_mono
      by_cases h : baseName item.filename ∈ st.fs.files
      · rw [dlStep_skip h]; exact h
      · rw [dlStep_dl h rfl]; exact List.mem_cons_self _ _
    · exact ih _ _ item hmem

/-- If every inventory item's base name is already present, Phase 2 only
counts skips: no download request, no write, no state change. -/
lemma dlPhase_allskip (dlOk : Nat → Bool) (idx : Nat) (items : List MediaItem)
    (st : SyncResult)
    (h : ∀ item ∈ items, baseName item.filename ∈ st.fs.files) :
    dlPhase dlOk idx items st
      = { st with stats := { st.stats with skipped := st.stats.skipped + items.length } } := by
  induction items generalizing idx st with
  | nil => simp [dlPhase]
  | cons item rest ih =>
    rw [dlPhase, dlStep_skip (h item (by simp))]
    rw [ih]
    · simp; omega
    · intro it hit
      exact h it (by simp [hit])

/-! ### Helper lemmas: the pagination loop -/

/-- Unfolding of `downloadMedia` into its two phases. -/
lemma downloadMedia_eq (R : List MediaItem) (fs0 : FsState)
    (delOk : String → Bool) (dlOk : Nat → Bool) :
    downloadMedia R fs0 delOk dlOk
      = dlPhase dlOk 0 R
          ⟨(prunePhase (googlePhotosFiles R) delOk (ensureDir fs0).files
              ((ensureDir fs0), initStats)).2,
           (prunePhase (googlePhotosFiles R) delOk (ensureDir fs0).files
              ((ensureDir fs0), initStats)).1,
           [], []⟩ := rfl

/-- A run over successful pages, the last of which carries no continuation
token: all items are accumulated in page order, one request per page is
issued with page size 50 and the cursor chain, and the loop terminates. -/
lemma fetchLoop_ok_trace (token : String) (ps : List (List MediaItem × String))
    (last : List MediaItem) (cursor : Option String) (acc : List MediaItem)
    (reqs : List ListReq) :
    fetchLoop token
        ((ps.map fun p => PageResp.ok p.1 (some p.2)) ++ [PageResp.ok last none])
        cursor acc reqs
      = ⟨acc ++ (ps.map Prod.fst).flatten ++ last,
         reqs ++ (cursor :: ps.map fun p => some p.2).map (fun c => ⟨50, c, some token⟩),
         true⟩ := by
  induction ps generalizing cursor acc reqs with
  | nil => simp [fetchLoop]
  | cons p rest ih =>
    simp only [List.map_cons, List.cons_append]
    rw [fetchLoop]
    rw [ih]
    simp [List.append_assoc]

/-- A run over successful pages all of which carry a continuation token
never exits the loop on its own. -/
lemma fetchLoop_ok_no_terminal (token : String) (ps : List (List MediaItem × String))
    (cursor : Option String) (acc : List MediaItem) (reqs : List ListReq) :
    (fetchLoop token (ps.map fun p => PageResp.ok p.1 (some p.2))
        cursor acc reqs).finished = false := by
  induction ps generalizing cursor acc reqs with
  | nil => rfl
  | cons p rest ih =>
    simp only [List.map_cons]
    rw [fetchLoop]
    exact ih _ _ _

/-- Every listing request the pagination loop issues carries the bearer
token in its `Authorization` header. -/
lemma fetchLoop_auth (token : String) (trace : List PageResp) :
    ∀ (cursor : Option String) (acc : List MediaItem) (reqs : List ListReq),
      (∀ r ∈ reqs, r.auth = some token) →
      ∀ r ∈ (fetchLoop token trace cursor acc reqs).reqs, r.auth = some token := by
  induction trace with
  | nil => intro cursor acc reqs h; exact h
  | cons resp rest ih =>
    intro cursor acc reqs h r hr
    have hext : ∀ (c : Option String), ∀ r' ∈ reqs ++ [(⟨50, c, some token⟩ : ListReq)],
        r'.auth = some token := by
      intro c r' hr'
      rcases List.mem_append.mp hr' with h' | h'
      · exact h r' h'
      · simp at h'; subst h'; rfl
    cases resp with
    | noToken =>
      cases cursor with
      | none => exact h r hr
      | some t => exact ih _ _ _ h r hr
    | httpError =>
      cases cursor with
      | none =>
        rw [fetchLoop] at hr
        exact hext none r hr
      | some t =>
        rw [fetchLoop] at hr
        exact ih _ _ _ (hext (some t)) r hr
    | ok items next =>
      cases next with
      | none =>
        rw [fetchLoop] at hr
        exact hext cursor r hr
      | some t =>
        rw [fetchLoop] at hr
        exact ih _ _ _ (hext cursor) r hr

/-- Every download request Phase 2 issues carries no `Authorization`
header. -/
lemma dlPhase_auth (dlOk : Nat → Bool) (idx : Nat) (items : List MediaItem)
    (st : SyncResult) (h : ∀ r ∈ st.reqs, r.auth = none) :
    ∀ r ∈ (dlPhase dlOk idx items st).reqs, r.auth = none := by
  induction items generalizing idx st with
  | nil => exact h
  | cons item rest ih =>
    rw [dlPhase]
    apply ih
    by_cases hm : baseName item.filename ∈ st.fs.files
    · rw [dlStep_skip hm]; exact h
    · have hext : ∀ r' ∈ st.reqs ++ [(⟨item.baseUrl ++ "=d", none⟩ : DlReq)],
          r'.auth = none := by
        intro r' hr'
        rcases List.mem_append.mp hr' with h' | h'
        · exact h r' h'
        · simp at h'; subst h'; rfl
      cases h2 : dlOk idx
      · rw [dlStep_err hm h2]; exact hext
      · rw [dlStep_dl hm h2]; exact hext

/-! ### Helper lemmas: directory creation and monotonicity -/

lemma ensureDir_dirExists (s : FsState) : (ensureDir s).dirExists = true := by
  by_cases h : s.dirExists <;> simp [ensureDir, h]

lemma ensureDir_eq_self {s : FsState} (h : s.dirExists = true) : ensureDir s = s := by
  simp [ensureDir, h]

lemma ensureDir_nodup {s : FsState} (h : s.files.Nodup) : (ensureDir s).files.Nodup := by
  by_cases hd : s.dirExists <;> simp [ensureDir, hd, h]

lemma statsLe_rfl (a : MediaStats) : statsLe a a := by
  simp [statsLe]

lemma statsLe_trans {a b c : MediaStats} (h1 : statsLe a b) (h2 : statsLe b c) :
    statsLe a c := by
  rcases h1 with ⟨x1, x2, x3, x4⟩; rcases h2 with ⟨y1, y2, y3, y4⟩
  exact ⟨x1.trans y1, x2.trans y2, x3.trans y3, x4.trans y4⟩

lemma pruneStep_mono (rn : List String) (delOk : String → Bool)
    (st : FsState × MediaStats) (f : String) :
    statsLe st.2 (pruneStep rn delOk st f).2 := by
  by_cases h1 : f ∈ rn
  · rw [pruneStep_of_mem delOk st h1]; exact statsLe_rfl _
  · cases h2 : delOk f
    · rw [pruneStep_err st h1 h2]; simp [statsLe]
    · rw [pruneStep_del st h1 h2]; simp [statsLe]

lemma prunePhase_mono (rn : List String) (delOk : String → Bool)
    (loc : List String) (st : FsState × MediaStats) :
    statsLe st.2 (prunePhase rn delOk loc st).2 := by
  induction loc generalizing st with
  | nil => exact statsLe_rfl _
  | cons f rest ih =>
    rw [prunePhase]
    exact statsLe_trans (pruneStep_mono rn delOk st f) (ih _)

lemma dlStep_mono (dlOk : Nat → Bool) (idx : Nat) (st : SyncResult)
    (item : MediaItem) :
    statsLe st.stats (dlStep dlOk idx st item).stats := by
  by_cases h : baseName item.filename ∈ st.fs.files
  · rw [dlStep_skip h]; simp [statsLe]
  · cases h2 : dlOk idx
    · rw [dlStep_err h h2]; simp [statsLe]
    · rw [dlStep_dl h h2]; simp [statsLe]

lemma dlPhase_mono (dlOk : Nat → Bool) (idx : Nat) (items : List MediaItem)
    (st : SyncResult) :
    statsLe st.stats (dlPhase dlOk idx items st).stats := by
  induction items generalizing idx st with
  | nil => exact statsLe_rfl _
  | cons item rest ih =>
    rw [dlPhase]
    exact statsLe_trans (dlStep_mono dlOk idx st item) (ih _ _)

/-! ### Claim theorems -/

/-- C9: if the target directory does not exist when `downloadMedia` starts,
it is created (empty) before any deletion or download — the whole run
proceeds exactly as from a fresh empty directory — the run completes
without failing, and the directory exists afterwards. -/
theorem C9_directory_creation (R : List MediaItem) (files : List String)
    (delOk : String → Bool) (dlOk : Nat → Bool) :
    downloadMedia R ⟨false, files⟩ delOk dlOk = downloadMedia R ⟨true, []⟩ delOk dlOk
      ∧ (downloadMedia R ⟨false, files⟩ delOk dlOk).fs.dirExists = true := by
  constructor
  · rfl
  · rw [downloadMedia_eq, dlPhase_dirExists]
    show (prunePhase _ _ _ _).1.dirExists = true
    rw [prunePhase_dirExists]
    exact ensureDir_dirExists _

/-- C7: over any sequence of successful pages whose last page carries no
continuation token, `fetchMediaItems` issues one request per page with page
size 50 and the cursor chain (no cursor for the first request, then each
page's token), accumulates all items in page order by concatenation (no
re-sorting, no dedup), and terminates exactly at the token-less page; if
every successful page carries a token, the loop does not terminate on its
own. In particular pages of 50, 50 and 10 items yield exactly 110 items. -/
theorem C7_pagination_completeness (token : String)
    (ps : List (List MediaItem × String)) (last : List MediaItem) :
    (fetchMediaItems token
        ((ps.map fun p => PageResp.ok p.1 (some p.2)) ++ [PageResp.ok last none])
      = ⟨(ps.map Prod.fst).flatten ++ last,
         (none :: ps.map fun p => some p.2).map (fun c => ⟨50, c, some token⟩),
         true⟩)
      ∧ (fetchMediaItems token
          ((ps.map fun p => PageResp.ok p.1 (some p.2)) ++ [PageResp.ok last none])).items.length
          = (ps.map fun p => p.1.length).sum + last.length
      ∧ ∀ qs : List (List MediaItem × String),
          (fetchMediaItems token (qs.map fun p => PageResp.ok p.1 (some p.2))).finished
            = false := by
  refine ⟨?_, ?_, ?_⟩
  · rw [fetchMediaItems, fetchLoop_ok_trace]
    simp
  · rw [fetchMediaItems, fetchLoop_ok_trace]
    simp [Function.comp]
    rfl
  · intro qs
    exact fetchLoop_ok_no_terminal token qs none [] []

/-- C2: for every inventory, starting state and pattern of per-item delete
or download failures, `downloadMedia` totally computes a `MediaStats`
summary in which every orphan of the snapshot and every remote item is
counted exactly once (so no failure aborts processing), and a failing
delete or download increments `errors` by exactly one while changing
nothing else of the state. -/
theorem C2_partial_failure_isolation (R : List MediaItem) (fs0 : FsState)
    (delOk : String → Bool) (dlOk : Nat → Bool) :
    ((downloadMedia R fs0 delOk dlOk).stats.downloaded
        + (downloadMedia R fs0 delOk dlOk).stats.skipped
        + (downloadMedia R fs0 delOk dlOk).stats.deleted
        + (downloadMedia R fs0 delOk dlOk).stats.errors
      = (orphans (googlePhotosFiles R) (ensureDir fs0).files).length + R.length)
      ∧ (∀ (idx : Nat) (st : SyncResult) (item : MediaItem),
          baseName item.filename ∉ st.fs.files → dlOk idx = false →
          dlStep dlOk idx st item
            = { st with
                stats := { st.stats with errors := st.stats.errors + 1 },
                reqs := st.reqs ++ [⟨item.baseUrl ++ "=d", none⟩] })
      ∧ (∀ (st : FsState × MediaStats) (f : String),
          f ∉ googlePhotosFiles R → delOk f = false →
          pruneStep (googlePhotosFiles R) delOk st f
            = (st.1, { st.2 with errors := st.2.errors + 1 })) := by
  refine ⟨?_, fun idx st item h h2 => dlStep_err h h2,
          fun st f h h2 => pruneStep_err st h h2⟩
  rw [downloadMedia_eq]
  have h1 := dlPhase_deleted dlOk 0 R
    ⟨(prunePhase (googlePhotosFiles R) delOk (ensureDir fs0).files
        ((ensureDir fs0), initStats)).2,
     (prunePhase (googlePhotosFiles R) delOk (ensureDir fs0).files
        ((ensureDir fs0), initStats)).1, [], []⟩
  have h2 := dlPhase_sum dlOk 0 R
    ⟨(prunePhase (googlePhotosFiles R) delOk (ensureDir fs0).files
        ((ensureDir fs0), initStats)).2,
     (prunePhase (googlePhotosFiles R) delOk (ensureDir fs0).files
        ((ensureDir fs0), initStats)).1, [], []⟩
  have h3 := prunePhase_downloaded (googlePhotosFiles R) delOk (ensureDir fs0).files
    ((ensureDir fs0), initStats)
  have h4 := prunePhase_skipped (googlePhotosFiles R) delOk (ensureDir fs0).files
    ((ensureDir fs0), initStats)
  have h5 := prunePhase_deleted_errors (googlePhotosFiles R) delOk (ensureDir fs0).files
    ((ensureDir fs0), initStats)
  simp only [initStats] at h1 h2 h3 h4 h5 ⊢
  omega

/-- C3 counterexample: after page 1 succeeds with token "T2" and page 2
fails, the loop does NOT stop: it re-issues a request with the unchanged
cursor "T2" (a retry), and when the retry succeeds the returned items are
those of pages 1 and 3 — not only the items accumulated before the
failure. -/
theorem C3_counterexample :
    ((fetchMediaItems "tok"
        [PageResp.ok [⟨"a", "a.jpg", "ua"⟩] (some "T2"),
         PageResp.httpError,
         PageResp.ok [⟨"b", "b.jpg", "ub"⟩] none]).items
      = [⟨"a", "a.jpg", "ua"⟩, ⟨"b", "b.jpg", "ub"⟩])
      ∧ ((fetchMediaItems "tok"
          [PageResp.ok [⟨"a", "a.jpg", "ua"⟩] (some "T2"),
           PageResp.httpError,
           PageResp.ok [⟨"b", "b.jpg", "ub"⟩] none]).items
        ≠ [⟨"a", "a.jpg", "ua"⟩])
      ∧ ((fetchMediaItems "tok"
          [PageResp.ok [⟨"a", "a.jpg", "ua"⟩] (some "T2"),
           PageResp.httpError,
           PageResp.ok [⟨"b", "b.jpg", "ub"⟩] none]).reqs
        = [⟨50, none, some "tok"⟩, ⟨50, some "T2", some "tok"⟩,
           ⟨50, some "T2", some "tok"⟩]) := by
  refine ⟨rfl, by decide, rfl⟩

/-- C3 (amended): on a page failure the fetcher never raises and records
nothing into the accumulator; if the failure hits the first page (no
cursor set yet) pagination stops and the items gathered so far are
returned, but if a cursor is set the cursor is left unchanged and the loop
continues by re-issuing the request for the same page (a retry), rather
than stopping. -/
theorem C3_page_failure_policy (token : String) (rest : List PageResp)
    (cursor : Option String) (acc : List MediaItem) (reqs : List ListReq) :
    (cursor = none →
      fetchLoop token (PageResp.httpError :: rest) cursor acc reqs
        = ⟨acc, reqs ++ [⟨50, none, some token⟩], true⟩)
      ∧ (∀ t, cursor = some t →
          fetchLoop token (PageResp.httpError :: rest) cursor acc reqs
            = fetchLoop token rest (some t) acc
                (reqs ++ [⟨50, some t, some token⟩])) := by
  constructor
  · rintro rfl; rfl
  · rintro t rfl; rfl

/-- C3 witness: the amended page-failure policy evaluated at a concrete
first-page failure and at a concrete mid-pagination failure. -/
theorem C3_page_failure_policy_witness :
    (fetchLoop "tok" [PageResp.httpError] none [] []
      = ⟨[], [⟨50, none, some "tok"⟩], true⟩)
      ∧ (fetchLoop "tok" [PageResp.httpError] (some "T2") [] []
        = fetchLoop "tok" [] (some "T2") [] [⟨50, some "T2", some "tok"⟩]) :=
  ⟨(C3_page_failure_policy "tok" [] none [] []).1 rfl,
   (C3_page_failure_policy "tok" [] (some "T2") [] []).2 "T2" rfl⟩

/-- C6 counterexample: a download request issued by `downloadMedia` carries
no `Authorization` header (`fetch(imageUrl)` is called with no headers),
so not every request to the download endpoint carries a bearer token. -/
theorem C6_counterexample :
    ((downloadMedia [⟨"id1", "a.jpg", "u"⟩] ⟨true, []⟩
        (fun _ => true) (fun _ => true)).reqs = [⟨"u=d", none⟩])
      ∧ ((downloadMedia [⟨"id1", "a.jpg", "u"⟩] ⟨true, []⟩
          (fun _ => true) (fun _ => true)).reqs.all (fun r => r.auth.isSome)
        = false) := by
  refine ⟨rfl, rfl⟩

/-- C6 (amended): every request to the listing endpoint carries the bearer
token in its `Authorization` header, while every request to the download
endpoint is issued with no `Authorization` header at all. -/
theorem C6_authorization_headers (token : String) (trace : List PageResp)
    (R : List MediaItem) (fs0 : FsState)
    (delOk : String → Bool) (dlOk : Nat → Bool) :
    (∀ r ∈ (fetchMediaItems token trace).reqs, r.auth = some token)
      ∧ (∀ r ∈ (downloadMedia R fs0 delOk dlOk).reqs, r.auth = none) := by
  constructor
  · exact fetchLoop_auth token trace none [] [] (by simp)
  · rw [downloadMedia_eq]
    exact dlPhase_auth _ _ _ _ (by simp)

/-- C6 witness: the amended header property evaluated on a concrete listing
request and a concrete download request. -/
theorem C6_authorization_headers_witness :
    ((⟨50, none, some "tok"⟩ : ListReq)
        ∈ (fetchMediaItems "tok" [PageResp.ok [] none]).reqs
      ∧ (⟨50, none, some "tok"⟩ : ListReq).auth = some "tok")
      ∧ ((⟨"u=d", none⟩ : DlReq)
          ∈ (downloadMedia [⟨"id1", "a.jpg", "u"⟩] ⟨true, []⟩
              (fun _ => true) (fun _ => true)).reqs
        ∧ (⟨"u=d", none⟩ : DlReq).auth = none) :=
  ⟨⟨by decide,
    (C6_authorization_headers "tok" [PageResp.ok [] none] [] ⟨true, []⟩
        (fun _ => true) (fun _ => true)).1 ⟨50, none, some "tok"⟩ (by decide)⟩,
   ⟨by decide,
    (C6_authorization_headers "tok" [PageResp.ok [] none]
        [⟨"id1", "a.jpg", "u"⟩] ⟨true, []⟩
        (fun _ => true) (fun _ => true)).2 ⟨"u=d", none⟩ (by decide)⟩⟩

/-- C2 witness: the accounting identity and the two failing-item equations
evaluated at a concrete one-item inventory, a one-orphan directory, and
oracles that make every delete and download fail. -/
theorem C2_partial_failure_isolation_witness :
    ((downloadMedia [⟨"1", "a.jpg", "u"⟩] ⟨true, ["b.jpg"]⟩
          (fun _ => false) (fun _ => false)).stats.downloaded
        + (downloadMedia [⟨"1", "a.jpg", "u"⟩] ⟨true, ["b.jpg"]⟩
            (fun _ => false) (fun _ => false)).stats.skipped
        + (downloadMedia [⟨"1", "a.jpg", "u"⟩] ⟨true, ["b.jpg"]⟩
            (fun _ => false) (fun _ => false)).stats.deleted
        + (downloadMedia [⟨"1", "a.jpg", "u"⟩] ⟨true, ["b.jpg"]⟩
            (fun _ => false) (fun _ => false)).stats.errors
      = (orphans (googlePhotosFiles [⟨"1", "a.jpg", "u"⟩])
          (ensureDir ⟨true, ["b.jpg"]⟩).files).length + 1)
      ∧ (dlStep (fun _ => false) 0 ⟨initStats, ⟨true, []⟩, [], []⟩ ⟨"1", "a.jpg", "u"⟩
        = { stats := { initStats with errors := initStats.errors + 1 },
            fs := ⟨true, []⟩, reqs := [⟨"u=d", none⟩], writes := [] })
      ∧ (pruneStep (googlePhotosFiles [⟨"1", "a.jpg", "u"⟩]) (fun _ => false)
          (⟨true, ["b.jpg"]⟩, initStats) "b.jpg"
        = (⟨true, ["b.jpg"]⟩, { initStats with errors := initStats.errors + 1 })) :=
  ⟨(C2_partial_failure_isolation [⟨"1", "a.jpg", "u"⟩] ⟨true, ["b.jpg"]⟩
      (fun _ => false) (fun _ => false)).1,
   by
    have h := (C2_partial_failure_isolation [⟨"1", "a.jpg", "u"⟩] ⟨true, ["b.jpg"]⟩
        (fun _ => false) (fun _ => false)).2.1 0
        ⟨initStats, ⟨true, []⟩, [], []⟩ ⟨"1", "a.jpg", "u"⟩ (by decide) rfl
    simpa using h,
   by
    have h := (C2_partial_failure_isolation [⟨"1", "a.jpg", "u"⟩] ⟨true, ["b.jpg"]⟩
        (fun _ => false) (fun _ => false)).2.2
        (⟨true, ["b.jpg"]⟩, initStats) "b.jpg" (by decide) rfl
    simpa using h⟩

/-- C5: for two inventory items X then Y whose filenames share a base name,
starting from an empty local directory with all transfers succeeding,
reconciliation downloads once from X's source (`X.baseUrl + "=d"`), counts
`downloaded = 1` and `skipped = 1` (Y), counts no error, performs exactly
one write (no overwrite), and leaves exactly that one file. -/
theorem C5_collision_tiebreak (X Y : MediaItem)
    (h : baseName X.filename = baseName Y.filename) :
    ((downloadMedia [X, Y] ⟨true, []⟩ (fun _ => true) (fun _ => true)).stats
        = ⟨1, 1, 0, 0⟩)
      ∧ ((downloadMedia [X, Y] ⟨true, []⟩ (fun _ => true) (fun _ => true)).writes
        = [(baseName X.filename, X.baseUrl ++ "=d")])
      ∧ ((downloadMedia [X, Y] ⟨true, []⟩ (fun _ => true) (fun _ => true)).reqs
        = [⟨X.baseUrl ++ "=d", none⟩])
      ∧ ((downloadMedia [X, Y] ⟨true, []⟩ (fun _ => true) (fun _ => true)).fs.files
        = [baseName X.filename]) := by
  have s1 : dlStep (fun _ => true) 0 ⟨initStats, ⟨true, []⟩, [], []⟩ X
      = ⟨⟨1, 0, 0, 0⟩, ⟨true, [baseName X.filename]⟩,
         [⟨X.baseUrl ++ "=d", none⟩], [(baseName X.filename, X.baseUrl ++ "=d")]⟩ := by
    rw [dlStep_dl (by simp) rfl]
    rfl
  have s2 : dlStep (fun _ => true) 1
      ⟨⟨1, 0, 0, 0⟩, ⟨true, [baseName X.filename]⟩,
       [⟨X.baseUrl ++ "=d", none⟩], [(baseName X.filename, X.baseUrl ++ "=d")]⟩ Y
      = ⟨⟨1, 1, 0, 0⟩, ⟨true, [baseName X.filename]⟩,
         [⟨X.baseUrl ++ "=d", none⟩], [(baseName X.filename, X.baseUrl ++ "=d")]⟩ := by
    rw [dlStep_skip (by simp [h])]
  have e1 : downloadMedia [X, Y] ⟨true, []⟩ (fun _ => true) (fun _ => true)
      = ⟨⟨1, 1, 0, 0⟩, ⟨true, [baseName X.filename]⟩,
         [⟨X.baseUrl ++ "=d", none⟩], [(baseName X.filename, X.baseUrl ++ "=d")]⟩ := by
    show dlPhase (fun _ => true) 0 [X, Y] ⟨initStats, ⟨true, []⟩, [], []⟩ = _
    rw [dlPhase, s1, dlPhase, s2, dlPhase]
  exact ⟨by rw [e1], by rw [e1], by rw [e1], by rw [e1]⟩

/-- C5 witness: the collision tie-break evaluated on two concrete items
that share the base name "a.jpg". -/
theorem C5_collision_tiebreak_witness :
    baseName "photos/a.jpg" = baseName "a.jpg"
      ∧ ((downloadMedia [⟨"1", "photos/a.jpg", "u1"⟩, ⟨"2", "a.jpg", "u2"⟩]
          ⟨true, []⟩ (fun _ => true) (fun _ => true)).stats = ⟨1, 1, 0, 0⟩) :=
  ⟨by decide,
   (C5_collision_tiebreak ⟨"1", "photos/a.jpg", "u1"⟩ ⟨"2", "a.jpg", "u2"⟩
      (by decide)).1⟩

/-- C4: with all deletes succeeding, a name survives Phase 1 iff it was in
the snapshot and is some remote item's base name (Phase 1 deletes exactly
the orphans); after the whole reconciliation no orphan name remains; and
whatever the delete-failure pattern, a name that is a remote base name is
never deleted by Phase 1. -/
theorem C4_prune_exactness (R : List MediaItem) (fs0 : FsState)
    (delOk : String → Bool) (dlOk : Nat → Bool) (hnd : fs0.files.Nodup) :
    (∀ name, name ∈ (prunePhase (googlePhotosFiles R) (fun _ => true)
          (ensureDir fs0).files ((ensureDir fs0), initStats)).1.files
        ↔ name ∈ (ensureDir fs0).files ∧ name ∈ googlePhotosFiles R)
      ∧ (∀ name ∈ (ensureDir fs0).files, name ∉ googlePhotosFiles R →
          name ∉ (downloadMedia R fs0 (fun _ => true) dlOk).fs.files)
      ∧ (∀ item ∈ R, baseName item.filename ∈ (ensureDir fs0).files →
          baseName item.filename
            ∈ (prunePhase (googlePhotosFiles R) delOk (ensureDir fs0).files
                ((ensureDir fs0), initStats)).1.files) := by
  have hnd1 : (ensureDir fs0).files.Nodup := ensureDir_nodup hnd
  refine ⟨?_, ?_, ?_⟩
  · intro name
    rw [prunePhase_mem_allOk (googlePhotosFiles R) (ensureDir fs0).files
      ((ensureDir fs0), initStats) hnd1 name]
    constructor
    · rintro ⟨hm, hor⟩
      rcases hor with hr | hnot
      · exact ⟨hm, hr⟩
      · exact absurd hm hnot
    · rintro ⟨hm, hr⟩
      exact ⟨hm, Or.inl hr⟩
  · intro name hmem hno hfinal
    rw [downloadMedia_eq] at hfinal
    rcases dlPhase_files_new _ _ _ _ _ hfinal with hin | ⟨item, hit, rfl⟩
    · have hin' : name ∈ (prunePhase (googlePhotosFiles R) (fun _ => true)
          (ensureDir fs0).files ((ensureDir fs0), initStats)).1.files := hin
      rw [prunePhase_mem_allOk (googlePhotosFiles R) (ensureDir fs0).files
        ((ensureDir fs0), initStats) hnd1 name] at hin'
      rcases hin'.2 with hr | hn
      · exact hno hr
      · exact hn hmem
    · exact hno (List.mem_map_of_mem _ hit)
  · intro item hit hmem
    exact prunePhase_mem_remote _ _ _ _ _ (List.mem_map_of_mem _ hit) hmem

/-- C4 witness: prune exactness evaluated on a concrete snapshot holding
one remote name and one orphan. -/
theorem C4_prune_exactness_witness :
    ("a.jpg" ∈ (prunePhase (googlePhotosFiles [⟨"1", "a.jpg", "u"⟩]) (fun _ => true)
          (ensureDir ⟨true, ["a.jpg", "z.txt"]⟩).files
          ((ensureDir ⟨true, ["a.jpg", "z.txt"]⟩), initStats)).1.files
        ↔ "a.jpg" ∈ (ensureDir ⟨true, ["a.jpg", "z.txt"]⟩).files
            ∧ "a.jpg" ∈ googlePhotosFiles [⟨"1", "a.jpg", "u"⟩])
      ∧ "z.txt" ∉ (downloadMedia [⟨"1", "a.jpg", "u"⟩] ⟨true, ["a.jpg", "z.txt"]⟩
          (fun _ => true) (fun _ => true)).fs.files
      ∧ baseName "a.jpg"
          ∈ (prunePhase (googlePhotosFiles [⟨"1", "a.jpg", "u"⟩]) (fun _ => false)
              (ensureDir ⟨true, ["a.jpg", "z.txt"]⟩).files
              ((ensureDir ⟨true, ["a.jpg", "z.txt"]⟩), initStats)).1.files :=
  ⟨(C4_prune_exactness [⟨"1", "a.jpg", "u"⟩] ⟨true, ["a.jpg", "z.txt"]⟩
      (fun _ => true) (fun _ => true) (by decide)).1 "a.jpg",
   (C4_prune_exactness [⟨"1", "a.jpg", "u"⟩] ⟨true, ["a.jpg", "z.txt"]⟩
      (fun _ => true) (fun _ => true) (by decide)).2.1 "z.txt" (by decide) (by decide),
   (C4_prune_exactness [⟨"1", "a.jpg", "u"⟩] ⟨true, ["a.jpg", "z.txt"]⟩
      (fun _ => false) (fun _ => true) (by decide)).2.2 ⟨"1", "a.jpg", "u"⟩
      (by decide) (by decide)⟩

/-- C8 counterexample: two colliding items from an empty directory.  The
code's live check skips the second item (`skipped = 1`), whereas a check
evaluated against a state without the earlier same-phase download — the
claim's wording; here that state is `[]`, the directory exactly as Phase 1
left it — would skip nothing and download twice.  So the skip check does
see downloads performed earlier in the same Phase 2 pass. -/
theorem C8_counterexample :
    ((downloadMedia [⟨"1", "a.jpg", "u1"⟩, ⟨"2", "a.jpg", "u2"⟩] ⟨true, []⟩
        (fun _ => true) (fun _ => true)).stats.skipped = 1)
      ∧ ((dlPhaseSnap [] (fun _ => true) 0 [⟨"1", "a.jpg", "u1"⟩, ⟨"2", "a.jpg", "u2"⟩]
          ⟨initStats, ⟨true, []⟩, [], []⟩).stats.skipped = 0)
      ∧ ((dlPhaseSnap [] (fun _ => true) 0 [⟨"1", "a.jpg", "u1"⟩, ⟨"2", "a.jpg", "u2"⟩]
          ⟨initStats, ⟨true, []⟩, [], []⟩).stats.downloaded = 2) := by
  refine ⟨rfl, rfl, rfl⟩

/-- C8 (amended): the skip check of Phase 2 is evaluated against the live
directory state — Phase 2 starts from the state Phase 1 left (reflecting
its deletions), a hit only increments `skipped` without issuing any
download request, and a successful download adds its name to the live
state, so it is visible to the checks of all later items in the same
pass. -/
theorem C8_skip_check_live (R : List MediaItem) (fs0 : FsState)
    (delOk : String → Bool) (dlOk : Nat → Bool) :
    (downloadMedia R fs0 delOk dlOk
      = dlPhase dlOk 0 R
          ⟨(prunePhase (googlePhotosFiles R) delOk (ensureDir fs0).files
              ((ensureDir fs0), initStats)).2,
           (prunePhase (googlePhotosFiles R) delOk (ensureDir fs0).files
              ((ensureDir fs0), initStats)).1, [], []⟩)
      ∧ (∀ (idx : Nat) (st : SyncResult) (item : MediaItem),
          baseName item.filename ∈ st.fs.files →
          dlStep dlOk idx st item
            = { st with stats := { st.stats with skipped := st.stats.skipped + 1 } })
      ∧ (∀ (idx : Nat) (st : SyncResult) (item : MediaItem),
          baseName item.filename ∉ st.fs.files → dlOk idx = true →
          (dlStep dlOk idx st item).fs.files
            = baseName item.filename :: st.fs.files) := by
  refine ⟨downloadMedia_eq R fs0 delOk dlOk,
          fun idx st item h => dlStep_skip h,
          fun idx st item h h2 => by rw [dlStep_dl h h2]⟩

/-- C8 witness: the live-check behaviour evaluated at concrete states —
a skip against a name written earlier in the same pass, and a download
making its name visible to later checks. -/
theorem C8_skip_check_live_witness :
    (dlStep (fun _ => true) 1
        ⟨⟨1, 0, 0, 0⟩, ⟨true, ["a.jpg"]⟩, [⟨"u1=d", none⟩], [("a.jpg", "u1=d")]⟩
        ⟨"2", "a.jpg", "u2"⟩
      = ⟨⟨1, 1, 0, 0⟩, ⟨true, ["a.jpg"]⟩, [⟨"u1=d", none⟩], [("a.jpg", "u1=d")]⟩)
      ∧ ((dlStep (fun _ => true) 0 ⟨initStats, ⟨true, []⟩, [], []⟩
          ⟨"1", "a.jpg", "u1"⟩).fs.files = ["a.jpg"]) := by
  constructor
  · have h := (C8_skip_check_live [] ⟨true, []⟩ (fun _ => true) (fun _ => true)).2.1 1
        ⟨⟨1, 0, 0, 0⟩, ⟨true, ["a.jpg"]⟩, [⟨"u1=d", none⟩], [("a.jpg", "u1=d")]⟩
        ⟨"2", "a.jpg", "u2"⟩ (by decide)
    rw [h]
  · have h := (C8_skip_check_live [] ⟨true, []⟩ (fun _ => true) (fun _ => true)).2.2 0
        ⟨initStats, ⟨true, []⟩, [], []⟩ ⟨"1", "a.jpg", "u1"⟩ (by decide) rfl
    rw [h]
    decide

/-- C10: per-item accounting — every Phase-2 item changes the statistics by
exactly one increment among `skipped`, `downloaded`, `errors`; a Phase-1
orphan increments exactly one of `deleted`, `errors` and a non-orphan
changes nothing; hence `downloaded + skipped ≤ |R|`, and across both phase
loops every counter is monotonically non-decreasing. -/
theorem C10_accounting_invariant (R : List MediaItem) (fs0 : FsState)
    (delOk : String → Bool) (dlOk : Nat → Bool) :
    (∀ (rn : List String) (st : FsState × MediaStats) (f : String),
        (f ∉ rn →
          (pruneStep rn delOk st f).2 = { st.2 with deleted := st.2.deleted + 1 }
            ∨ (pruneStep rn delOk st f).2 = { st.2 with errors := st.2.errors + 1 })
        ∧ (f ∈ rn → pruneStep rn delOk st f = st))
      ∧ (∀ (idx : Nat) (st : SyncResult) (item : MediaItem),
          (dlStep dlOk idx st item).stats
              = { st.stats with skipped := st.stats.skipped + 1 }
            ∨ (dlStep dlOk idx st item).stats
              = { st.stats with downloaded := st.stats.downloaded + 1 }
            ∨ (dlStep dlOk idx st item).stats
              = { st.stats with errors := st.stats.errors + 1 })
      ∧ ((downloadMedia R fs0 delOk dlOk).stats.downloaded
          + (downloadMedia R fs0 delOk dlOk).stats.skipped ≤ R.length)
      ∧ (∀ (rn loc : List String) (st : FsState × MediaStats),
          statsLe st.2 (prunePhase rn delOk loc st).2)
      ∧ (∀ (idx : Nat) (items : List MediaItem) (st : SyncResult),
          statsLe st.stats (dlPhase dlOk idx items st).stats) := by
  refine ⟨?_, ?_, ?_, fun rn loc st => prunePhase_mono rn delOk loc st,
          fun idx items st => dlPhase_mono dlOk idx items st⟩
  · intro rn st f
    constructor
    · intro h1
      cases h2 : delOk f
      · right; rw [pruneStep_err st h1 h2]
      · left; rw [pruneStep_del st h1 h2]
    · intro h1
      exact pruneStep_of_mem delOk st h1
  · intro idx st item
    by_cases h : baseName item.filename ∈ st.fs.files
    · left; rw [dlStep_skip h]
    · cases h2 : dlOk idx
      · right; right; rw [dlStep_err h h2]
      · right; left; rw [dlStep_dl h h2]
  · rw [downloadMedia_eq]
    have h2 := dlPhase_sum dlOk 0 R
      ⟨(prunePhase (googlePhotosFiles R) delOk (ensureDir fs0).files
          ((ensureDir fs0), initStats)).2,
       (prunePhase (googlePhotosFiles R) delOk (ensureDir fs0).files
          ((ensureDir fs0), initStats)).1, [], []⟩
    have h6 := dlPhase_mono dlOk 0 R
      ⟨(prunePhase (googlePhotosFiles R) delOk (ensureDir fs0).files
          ((ensureDir fs0), initStats)).2,
       (prunePhase (googlePhotosFiles R) delOk (ensureDir fs0).files
          ((ensureDir fs0), initStats)).1, [], []⟩
    have h3 := prunePhase_downloaded (googlePhotosFiles R) delOk (ensureDir fs0).files
      ((ensureDir fs0), initStats)
    have h4 := prunePhase_skipped (googlePhotosFiles R) delOk (ensureDir fs0).files
      ((ensureDir fs0), initStats)
    obtain ⟨-, -, -, h6e⟩ := h6
    simp only [initStats] at h2 h3 h4 h6e ⊢
    omega

/-- C10 witness: the accounting invariant evaluated at a concrete orphan, a
concrete remote-named file, and a concrete one-item run. -/
theorem C10_accounting_invariant_witness :
    ((pruneStep ["a.jpg"] (fun _ => true) (⟨true, ["b.jpg"]⟩, initStats) "b.jpg").2
        = { initStats with deleted := initStats.deleted + 1 }
      ∨ (pruneStep ["a.jpg"] (fun _ => true) (⟨true, ["b.jpg"]⟩, initStats) "b.jpg").2
        = { initStats with errors := initStats.errors + 1 })
      ∧ (pruneStep ["a.jpg"] (fun _ => true) (⟨true, ["a.jpg"]⟩, initStats) "a.jpg"
        = (⟨true, ["a.jpg"]⟩, initStats))
      ∧ ((downloadMedia [⟨"1", "a.jpg", "u"⟩] ⟨true, []⟩ (fun _ => true)
            (fun _ => true)).stats.downloaded
          + (downloadMedia [⟨"1", "a.jpg", "u"⟩] ⟨true, []⟩ (fun _ => true)
              (fun _ => true)).stats.skipped ≤ 1) :=
  ⟨((C10_accounting_invariant [⟨"1", "a.jpg", "u"⟩] ⟨true, []⟩ (fun _ => true)
      (fun _ => true)).1 ["a.jpg"] (⟨true, ["b.jpg"]⟩, initStats) "b.jpg").1
      (by decide),
   ((C10_accounting_invariant [⟨"1", "a.jpg", "u"⟩] ⟨true, []⟩ (fun _ => true)
      (fun _ => true)).1 ["a.jpg"] (⟨true, ["a.jpg"]⟩, initStats) "a.jpg").2
      (by decide),
   (C10_accounting_invariant [⟨"1", "a.jpg", "u"⟩] ⟨true, []⟩ (fun _ => true)
      (fun _ => true)).2.2.1⟩

/-- C1: with pairwise-distinct remote base names, running `downloadMedia`
on a directory already produced by a prior fully successful pass over the
same inventory yields `downloaded = 0`, `skipped = |R|`, `deleted = 0`,
`errors = 0` and leaves the directory state (hence its file set)
unchanged. -/
theorem C1_idempotence (R : List MediaItem) (fs0 : FsState)
    (hR : (googlePhotosFiles R).Nodup) (hnd : fs0.files.Nodup) :
    ((downloadMedia R (downloadMedia R fs0 (fun _ => true) (fun _ => true)).fs
        (fun _ => true) (fun _ => true)).stats
      = ⟨0, R.length, 0, 0⟩)
      ∧ ((downloadMedia R (downloadMedia R fs0 (fun _ => true) (fun _ => true)).fs
          (fun _ => true) (fun _ => true)).fs
        = (downloadMedia R fs0 (fun _ => true) (fun _ => true)).fs) := by
  have hnd1 : (ensureDir fs0).files.Nodup := ensureDir_nodup hnd
  have hFdef : (downloadMedia R fs0 (fun _ => true) (fun _ => true)).fs
      = (dlPhase (fun _ => true) 0 R
          ⟨(prunePhase (googlePhotosFiles R) (fun _ => true) (ensureDir fs0).files
              ((ensureDir fs0), initStats)).2,
           (prunePhase (googlePhotosFiles R) (fun _ => true) (ensureDir fs0).files
              ((ensureDir fs0), initStats)).1, [], []⟩).fs :=
    congrArg SyncResult.fs (downloadMedia_eq R fs0 _ _)
  have hdir : (downloadMedia R fs0 (fun _ => true) (fun _ => true)).fs.dirExists
      = true := by
    rw [hFdef, dlPhase_dirExists]
    show (prunePhase (googlePhotosFiles R) (fun _ => true) (ensureDir fs0).files
        ((ensureDir fs0), initStats)).1.dirExists = true
    rw [prunePhase_dirExists]
    exact ensureDir_dirExists fs0
  have hsub : ∀ x ∈ (downloadMedia R fs0 (fun _ => true) (fun _ => true)).fs.files,
      x ∈ googlePhotosFiles R := by
    intro x hx
    rw [hFdef] at hx
    rcases dlPhase_files_new _ _ _ _ _ hx with h | ⟨item, hit, rfl⟩
    · have h' : x ∈ (prunePhase (googlePhotosFiles R) (fun _ => true)
          (ensureDir fs0).files ((ensureDir fs0), initStats)).1.files := h
      rw [prunePhase_mem_allOk (googlePhotosFiles R) (ensureDir fs0).files
        ((ensureDir fs0), initStats) hnd1 x] at h'
      rcases h'.2 with hr | hn
      · exact hr
      · exact absurd h'.1 hn
    · exact List.mem_map_of_mem _ hit
  have hcov : ∀ item ∈ R, baseName item.filename
      ∈ (downloadMedia R fs0 (fun _ => true) (fun _ => true)).fs.files := by
    intro item hit
    rw [hFdef]
    exact dlPhase_covers _ _ _ item hit
  have hnoop : prunePhase (googlePhotosFiles R) (fun _ => true)
      (downloadMedia R fs0 (fun _ => true) (fun _ => true)).fs.files
      ((downloadMedia R fs0 (fun _ => true) (fun _ => true)).fs, initStats)
      = ((downloadMedia R fs0 (fun _ => true) (fun _ => true)).fs, initStats) :=
    prunePhase_noop _ _ _ _ hsub
  have hskip := dlPhase_allskip (fun _ => true) 0 R
      ⟨initStats, (downloadMedia R fs0 (fun _ => true) (fun _ => true)).fs, [], []⟩
      (fun item hit => hcov item hit)
  have final : downloadMedia R (downloadMedia R fs0 (fun _ => true) (fun _ => true)).fs
      (fun _ => true) (fun _ => true)
      = ⟨{ initStats with skipped := initStats.skipped + R.length },
         (downloadMedia R fs0 (fun _ => true) (fun _ => true)).fs, [], []⟩ := by
    rw [downloadMedia_eq, ensureDir_eq_self hdir, hnoop]
    exact hskip
  constructor
  · rw [final]
    simp [initStats]
  · rw [final]

/-- C1 witness: idempotence evaluated on a concrete two-item inventory with
distinct base names, starting from a non-existent directory. -/
theorem C1_idempotence_witness :
    (googlePhotosFiles [⟨"1", "a.jpg", "u1"⟩, ⟨"2", "b.jpg", "u2"⟩]).Nodup
      ∧ ((downloadMedia [⟨"1", "a.jpg", "u1"⟩, ⟨"2", "b.jpg", "u2"⟩]
          (downloadMedia [⟨"1", "a.jpg", "u1"⟩, ⟨"2", "b.jpg", "u2"⟩] ⟨false, []⟩
            (fun _ => true) (fun _ => true)).fs
          (fun _ => true) (fun _ => true)).stats = ⟨0, 2, 0, 0⟩) :=
  ⟨by decide,
   (C1_idempotence [⟨"1", "a.jpg", "u1"⟩, ⟨"2", "b.jpg", "u2"⟩] ⟨false, []⟩
      (by decide) (by decide)).1⟩

end GPhotos
